import Mathlib

/-!
# Verification of the l20n recursive-descent parser

This file gives a shallow embedding of `src/l20n/parser.py` and proves or
refutes the frozen specification claims about it.

Modelling conventions:

* The parser's mutable cursor `self.content` (a Python string that every
  production slices) is passed explicitly as a `List Char`; each production
  returns the produced node together with the updated cursor.
* Python exceptions are modelled with `Except`:
  `ParserError` becomes `PErr.parserError`, and an out-of-range string
  index (`self.content[0]` / `self.content[ptr]` on exhausted input, which
  raises an uncaught `IndexError` since the `except IndexError` handler in
  `Parser.parse` is commented out in the source) becomes `PErr.indexError`.
  Python string *slices* (`content[:2]`, `content[1:]`) never raise and are
  modelled with `List.take` / `List.drop`, which are total in the same way.
* The mutually recursive productions are given a fuel argument so that the
  Lean functions are total; running out of fuel yields `PErr.outOfFuel`.
  A run of the Python parser that terminates is reflected by every
  sufficiently large fuel, and an infinite loop of the Python parser is
  reflected by `PErr.outOfFuel` for *every* fuel.
* `Parser.parse` sets `self._parse_strings = True` before consuming any
  input, so the `get_string` branch of `get_value` (taken only when
  `_parse_strings` is false) is unreachable from `parse`; `get_value` is
  embedded with the `_parse_strings = True` behaviour, i.e. quoted values
  always go through `get_complex_string`.
* Python's `re` patterns are embedded by their action on the cursor:
  `^([a-zA-Z]\w*)` (identifiers), `^([^\\{q]+)` (complex-string literal
  runs, `q` the closing quote), `^[<>]=?` (relational operators).  `\w` and
  `isdigit` are embedded as their ASCII cores, which is exact on every
  input considered here.
* `string.whitespace` is the six ASCII characters `" \t\n\r\x0b\x0c"`,
  while `str.lstrip()` (used by `get_ws`) strips the larger Python
  `str.isspace` set; both sets are embedded explicitly.
* Since the keywords `macro`, `prefix` and `postfix` cannot be used as Lean
  identifiers, `get_macro` is embedded as `get_mcr`, the generic helper
  `get_prefix_expression` as `get_binop_expression`,
  `get_prefix_expression_re` as `get_binop_expression_re` and
  `get_postfix_expression` as `get_unop_expression`.  All other embedded
  functions keep their source names.
-/

namespace L20n

/-- Failure modes of a parser run: `parserError` embeds a raised
`ParserError`, `indexError` embeds an uncaught `IndexError` from an
out-of-range `content[i]` access, and `outOfFuel` reports exhausted fuel
(the fuel-indexed image of non-termination). -/
inductive PErr where
  | parserError
  | indexError
  | outOfFuel
deriving DecidableEq, Repr

/-- Result of a production: an error, or a value paired with the remaining
cursor. -/
abbrev PR (α : Type) := Except PErr (α × List Char)

/-- The single quote character (written via its code point). -/
def squote : Char := Char.ofNat 39

/-- `string.whitespace` from the Python standard library:
`" \t\n\r\x0b\x0c"` (space, tab, linefeed, return, vertical tab, form
feed).  This is the set `get_ws` tests `content[0]` against. -/
def wschars : List Char := [' ', '\t', '\n', '\r', '\x0b', '\x0c']

/-- The character set stripped by Python's default `str.lstrip()`, i.e. the
characters `c` with `c.isspace()` true: `string.whitespace` plus the file,
group, record and unit separators, NEL, NBSP and the Unicode space code
points. -/
def pySpaceChars : List Char :=
  [' ', '\t', '\n', '\r', '\x0b', '\x0c',
   '\x1c', '\x1d', '\x1e', '\x1f', '\x85', '\xa0',
   '\u1680', '\u2000', '\u2001', '\u2002', '\u2003', '\u2004', '\u2005',
   '\u2006', '\u2007', '\u2008', '\u2009', '\u200a',
   '\u2028', '\u2029', '\u202f', '\u205f', '\u3000']

/-- Python `str.isspace` on a single character. -/
def pyIsSpace (c : Char) : Bool := pySpaceChars.contains c

/-- ASCII core of the regex class `\w`: letters, digits, underscore. -/
def isWordChar (c : Char) : Bool := c.isAlpha || c.isDigit || c == '_'

/-- `int(...)` on a run of decimal digits. -/
def digitsToNat (ds : List Char) : Nat :=
  ds.foldl (fun acc c => acc * 10 + (c.toNat - 48)) 0

/-- The AST node classes of `l20n.ast` that the parser constructs, with the
fields the parser fills in.  `Identifier`, `Literal`, `String`,
`ComplexString`, `Array`, `Hash`, the expression classes and
`KeyValuePair` contents are merged into one inductive type, since values
are valid primary expressions in this grammar. -/
inductive Expr where
  | identifier (name : List Char)
  | literal (n : Nat)
  | string (s : List Char)
  | complexString (body : List Expr)
  | array (elems : List Expr)
  | hash (pairs : List (List Char × Expr))
  | conditional (test consequent alternate : Expr)
  | logical (op : List Char) (left right : Expr)
  | binary (op : List Char) (left right : Expr)
  | unary (op : Char) (arg : Expr)
  | paren (e : Expr)
  | property (idref : Expr) (exp : Expr) (computed : Bool)
  | attr (idref : Expr) (exp : Expr) (computed : Bool)
  | call (callee : Expr) (args : List Expr)
deriving Repr

/-- `isinstance(e, ast.String)` from the degenerate-complex-string check. -/
def isStringNode : Expr → Bool
  | .string _ => true
  | _ => false

/-- Top-level entries: `ast.Entity` (with its `_template` format string),
`ast.Macro` (embedded as `mcr`) and `ast.Comment`. -/
inductive Entry where
  | entity (id : List Char) (index : Option (List Expr)) (value : Option Expr)
      (attrs : Option (List (List Char × Expr))) (template : List Char)
  | mcr (id : List Char) (params : List (List Char)) (exp : Expr)
      (attrs : Option (List (List Char × Expr)))
  | comment (text : List Char)
deriving Repr

/-- `ast.LOL`: the resource root, with its entry list `body` and its
whitespace `_template` fragment list. -/
structure LOL where
  body : List Entry
  template : List (List Char)
deriving Repr

/-- Number of `%s` substitution slots in a format template string
(non-overlapping left-to-right scan, as Python `%`-formatting reads it). -/
def countSlots : List Char → Nat
  | [] => 0
  | [_] => 0
  | a :: b :: rest =>
    if a = '%' ∧ b = 's' then countSlots rest + 1 else countSlots (b :: rest)

/-- `Parser.get_ws`: if the head of the cursor is not in
`string.whitespace` (or the cursor is empty, the `except IndexError`
branch) return `''` and leave the cursor alone; otherwise strip the
leading `str.isspace` run with `lstrip()` and return
`content[:len(stripped)*-1]` — which is the stripped run, except that when
everything was stripped (`len(stripped) == 0`) the slice `[:0]` returns
the empty string. -/
def get_ws (content : List Char) : List Char × List Char :=
  match content with
  | [] => ([], content)
  | c :: _ =>
    if c ∈ wschars then
      let rest := content.dropWhile pyIsSpace
      let ws := if rest = [] then [] else content.take (content.length - rest.length)
      (ws, rest)
    else ([], content)

/-- `Parser.get_identifier`: match `^([a-zA-Z]\w*)` at the cursor, fail
with `ParserError` when it does not match (also on empty input: `re.match`
on an empty string simply returns no match). -/
def get_identifier (content : List Char) : PR (List Char) :=
  match content with
  | [] => .error .parserError
  | c :: rest =>
    if c.isAlpha then
      let tail := rest.takeWhile isWordChar
      .ok (c :: tail, rest.drop tail.length)
    else .error .parserError

/-- `str.partition('*/')` restricted to what `get_comment` needs: split at
the first occurrence of `*/`, or report that there is none. -/
def partitionStar : List Char → Option (List Char × List Char)
  | [] => none
  | '*' :: '/' :: rest => some ([], rest)
  | c :: rest =>
    match partitionStar rest with
    | some (a, b) => some (c :: a, b)
    | none => none

/-- `Parser.get_comment`: drop the leading `/*`, split at the first `*/`;
no separator means `ParserError`. -/
def get_comment (content : List Char) : PR Entry :=
  match partitionStar (content.drop 2) with
  | some (txt, rest) => .ok (.comment txt, rest)
  | none => .error .parserError

/-- The regex `^([^\\{q]+)` used for literal runs inside a complex string:
the maximal nonempty run of characters that are neither a backslash, an
opening brace, nor the closing quote `q`. -/
def literalMatch (q : Char) (content : List Char) : Option (List Char × List Char) :=
  let run := content.takeWhile (fun c => !(c == '\\' || c == '{' || c == q))
  if run = [] then none else some (run, content.drop run.length)

/-- The regex `^[<>]=?` used by the relational level. -/
def relMatch : List Char → Option (List Char × List Char)
  | [] => none
  | c :: rest =>
    if c = '<' ∨ c = '>' then
      match rest with
      | '=' :: r2 => some ([c, '='], r2)
      | _ => some ([c], rest)
    else none

/-- The `while` loop of `Parser.get_prefix_expression` (the shared
left-associative binary/logical level): while the next `tokLen` characters
form one of this level's tokens, consume the token, skip whitespace, parse
the right operand with `nxt`, skip whitespace and fold left. -/
def get_binop_loop (tokLen : Nat) (toks : List (List Char))
    (mk : List Char → Expr → Expr → Expr) (nxt : List Char → PR Expr) :
    Nat → Expr → List Char → PR Expr
  | 0, _, _ => .error .outOfFuel
  | fuel + 1, exp, content =>
    if content.take tokLen ∈ toks then
      let t := content.take tokLen
      let (_, c1) := get_ws (content.drop tokLen)
      match nxt c1 with
      | .error e => .error e
      | .ok (rhs, c2) =>
        let (_, c3) := get_ws c2
        get_binop_loop tokLen toks mk nxt fuel (mk t exp rhs) c3
    else .ok (exp, content)

/-- `Parser.get_prefix_expression`: parse the left operand with `nxt`,
skip whitespace, then run the operator loop. -/
def get_binop_expression (tokLen : Nat) (toks : List (List Char))
    (mk : List Char → Expr → Expr → Expr) (nxt : List Char → PR Expr)
    (fuel : Nat) (content : List Char) : PR Expr :=
  match nxt content with
  | .error e => .error e
  | .ok (exp, c1) =>
    let (_, c2) := get_ws c1
    get_binop_loop tokLen toks mk nxt fuel exp c2

/-- The `while` loop of `Parser.get_prefix_expression_re` (the relational
level, whose operators are matched with `^[<>]=?`). -/
def get_binop_re_loop (mk : List Char → Expr → Expr → Expr)
    (nxt : List Char → PR Expr) : Nat → Expr → List Char → PR Expr
  | 0, _, _ => .error .outOfFuel
  | fuel + 1, exp, content =>
    match relMatch content with
    | some (t, c0) =>
      let (_, c1) := get_ws c0
      match nxt c1 with
      | .error e => .error e
      | .ok (rhs, c2) =>
        let (_, c3) := get_ws c2
        get_binop_re_loop mk nxt fuel (mk t exp rhs) c3
    | none => .ok (exp, content)

/-- `Parser.get_prefix_expression_re`. -/
def get_binop_expression_re (mk : List Char → Expr → Expr → Expr)
    (nxt : List Char → PR Expr) (fuel : Nat) (content : List Char) : PR Expr :=
  match nxt content with
  | .error e => .error e
  | .ok (exp, c1) =>
    let (_, c2) := get_ws c1
    get_binop_re_loop mk nxt fuel exp c2

/-- `Parser.get_postfix_expression` (the unary level, despite its source
name): read `t = content[0]` — an `IndexError` when the input is exhausted
— and if `t` is one of this level's tokens consume it, skip whitespace and
recurse (stacked unary operators); otherwise delegate to `nxt`. -/
def get_unop_expression (toks : List Char) (mk : Char → Expr → Expr)
    (nxt : List Char → PR Expr) : Nat → List Char → PR Expr
  | 0, _ => .error .outOfFuel
  | fuel + 1, content =>
    match content with
    | [] => .error .indexError
    | t :: rest =>
      if t ∈ toks then
        let (_, c1) := get_ws rest
        match get_unop_expression toks mk nxt fuel c1 with
        | .error e => .error e
        | .ok (arg, c2) => .ok (mk t arg, c2)
      else nxt content

mutual

/-- `Parser.get_entry`: on `<` parse an identifier and dispatch on the next
character (`(` macro, `[` indexed entity, otherwise plain entity); on `/*`
a comment; anything else is a `ParserError`.  Reading `content[0]` of an
exhausted cursor — as happens right after the identifier of `"<foo"` — is
an `IndexError`. -/
def get_entry : Nat → List Char → PR Entry
  | 0, _ => .error .outOfFuel
  | fuel + 1, content =>
    match content with
    | [] => .error .indexError
    | ch :: rest =>
      if ch = '<' then
        match get_identifier rest with
        | .error e => .error e
        | .ok (id, c1) =>
          match c1 with
          | [] => .error .indexError
          | c :: _ =>
            if c = '(' then get_mcr fuel id c1
            else if c = '[' then
              match get_index fuel c1 with
              | .error e => .error e
              | .ok (idx, c2) => get_entity fuel id (some idx) c2
            else get_entity fuel id none c1
      else if content.take 2 = ['/', '*'] then get_comment content
      else .error .parserError

/-- `Parser.get_entity`: skip whitespace `ws1`; a `>` lookahead closes a
value-less, attribute-less entity whose `_template` is
`"<%%s%s%%s%%s%%s>" % ws1`; otherwise `ws1` must be nonempty, then an
optional value, whitespace `ws2` and an optional attribute block are
parsed and the `_template` is `"<%%s%%s%s%%s%s%%s>" % (ws1, ws2)`. -/
def get_entity : Nat → List Char → Option (List Expr) → List Char → PR Entry
  | 0, _, _, _ => .error .outOfFuel
  | fuel + 1, id, idx, content =>
    let (ws1, c) := get_ws content
    match c with
    | [] => .error .indexError
    | ch :: rest =>
      if ch = '>' then
        .ok (.entity id idx none none ("<%s".data ++ ws1 ++ "%s%s%s>".data), rest)
      else if ws1 = [] then .error .parserError
      else
        match get_value fuel true c with
        | .error e => .error e
        | .ok (v, c1) =>
          let (ws2, c2) := get_ws c1
          match get_attributes fuel c2 with
          | .error e => .error e
          | .ok (attrs, c3) =>
            .ok (.entity id idx v attrs
              ("<%s%s".data ++ ws1 ++ "%s".data ++ ws2 ++ "%s>".data), c3)

/-- `Parser.get_macro` up to its parameter list: consume `(`, skip
whitespace, and either close an empty list on `)` or parse the
comma-separated identifier list. -/
def get_mcr : Nat → List Char → List Char → PR Entry
  | 0, _, _ => .error .outOfFuel
  | fuel + 1, id, content =>
    let (_, c) := get_ws (content.drop 1)
    match c with
    | [] => .error .indexError
    | ch :: rest =>
      if ch = ')' then get_mcr_after fuel id [] rest
      else
        match get_mcr_params fuel [] c with
        | .error e => .error e
        | .ok (params, c2) => get_mcr_after fuel id params c2

/-- The parameter-list `while` loop of `Parser.get_macro`. -/
def get_mcr_params : Nat → List (List Char) → List Char → PR (List (List Char))
  | 0, _, _ => .error .outOfFuel
  | fuel + 1, acc, content =>
    match get_identifier content with
    | .error e => .error e
    | .ok (pid, c1) =>
      let (_, c2) := get_ws c1
      match c2 with
      | [] => .error .indexError
      | ch :: rest =>
        if ch = ',' then
          let (_, c3) := get_ws rest
          get_mcr_params fuel (acc ++ [pid]) c3
        else if ch = ')' then .ok (acc ++ [pid], rest)
        else .error .parserError

/-- The rest of `Parser.get_macro` after the parameter list: mandatory
whitespace, `{`, a body expression, `}`, whitespace, an optional attribute
block. -/
def get_mcr_after : Nat → List Char → List (List Char) → List Char → PR Entry
  | 0, _, _, _ => .error .outOfFuel
  | fuel + 1, id, params, content =>
    let (ws, c) := get_ws content
    if ws = [] then .error .parserError
    else
      match c with
      | [] => .error .indexError
      | ch :: rest =>
        if ch = '{' then
          match get_expression fuel rest with
          | .error e => .error e
          | .ok (exp, c1) =>
            let (_, c2) := get_ws c1
            match c2 with
            | [] => .error .indexError
            | ch2 :: r2 =>
              if ch2 = '}' then
                let (_, c3) := get_ws r2
                match get_attributes fuel c3 with
                | .error e => .error e
                | .ok (attrs, c4) => .ok (.mcr id params exp attrs, c4)
              else .error .parserError
        else .error .parserError

/-- `Parser.get_value` (in the `_parse_strings = True` mode that
`Parser.parse` always sets): dispatch on `content[0]` — quote to
`get_complex_string`, `[` to `get_array`, `{` to `get_hash`; any other
character yields `None` when `none=True` (entity values are optional) and
a `ParserError` otherwise. -/
def get_value : Nat → Bool → List Char → PR (Option Expr)
  | 0, _, _ => .error .outOfFuel
  | fuel + 1, noneOk, content =>
    match content with
    | [] => .error .indexError
    | c :: _ =>
      if c = '"' ∨ c = squote then
        match get_complex_string fuel content with
        | .error e => .error e
        | .ok (v, c1) => .ok (some v, c1)
      else if c = '[' then
        match get_array fuel content with
        | .error e => .error e
        | .ok (v, c1) => .ok (some v, c1)
      else if c = '{' then
        match get_hash fuel content with
        | .error e => .error e
        | .ok (v, c1) => .ok (some v, c1)
      else if noneOk then .ok (none, content)
      else .error .parserError

/-- `Parser.get_complex_string`: record the opening quote as the closing
delimiter, run the segment loop, and collapse a single literal segment to
a plain `String` node (`len(obj) == 1 and isinstance(obj[0], ast.String)`). -/
def get_complex_string : Nat → List Char → PR Expr
  | 0, _ => .error .outOfFuel
  | fuel + 1, content =>
    match content with
    | [] => .error .indexError
    | q :: rest =>
      match get_cs_loop fuel q [] rest with
      | .error e => .error e
      | .ok (obj, c1) =>
        match obj with
        | [e] => if isStringNode e then .ok (e, c1) else .ok (.complexString obj, c1)
        | _ => .ok (.complexString obj, c1)

/-- The `while self.content[0] != str_end` loop of
`Parser.get_complex_string`.  Each iteration: on `{{` parse an embedded
expression and require `}}`; then (unconditionally — the source has no
`elif`) try the literal-run regex and append a `String` segment when it
matches.  An iteration in which neither part fires leaves the cursor
unchanged — the loop then repeats on the very same state. -/
def get_cs_loop : Nat → Char → List Expr → List Char → Except PErr (List Expr × List Char)
  | 0, _, _, _ => .error .outOfFuel
  | fuel + 1, q, obj, content =>
    match content with
    | [] => .error .indexError
    | c :: rest =>
      if c = q then .ok (obj, rest)
      else if content.take 2 = ['{', '{'] then
        match get_expression fuel (content.drop 2) with
        | .error e => .error e
        | .ok (e, c1) =>
          if c1.take 2 = ['}', '}'] then
            let obj2 := obj ++ [e]
            let c2 := c1.drop 2
            match literalMatch q c2 with
            | some (buf, c3) => get_cs_loop fuel q (obj2 ++ [.string buf]) c3
            | none => get_cs_loop fuel q obj2 c2
          else .error .parserError
      else
        match literalMatch q content with
        | some (buf, c3) => get_cs_loop fuel q (obj ++ [.string buf]) c3
        | none => get_cs_loop fuel q obj content

/-- `Parser.get_array`: consume `[`, skip whitespace; `]` closes an empty
array, otherwise run the element loop. -/
def get_array : Nat → List Char → PR Expr
  | 0, _ => .error .outOfFuel
  | fuel + 1, content =>
    let (_, c) := get_ws (content.drop 1)
    match c with
    | [] => .error .indexError
    | ch :: rest =>
      if ch = ']' then .ok (.array [], rest)
      else get_array_loop fuel [] c

/-- The element `while` loop of `Parser.get_array`. -/
def get_array_loop : Nat → List Expr → List Char → PR Expr
  | 0, _, _ => .error .outOfFuel
  | fuel + 1, acc, content =>
    match get_value fuel false content with
    | .error e => .error e
    | .ok (v?, c1) =>
      match v? with
      | none => .error .parserError
      | some v =>
        let (_, c2) := get_ws c1
        match c2 with
        | [] => .error .indexError
        | ch :: rest =>
          if ch = ',' then
            let (_, c3) := get_ws rest
            get_array_loop fuel (acc ++ [v]) c3
          else if ch = ']' then .ok (.array (acc ++ [v]), rest)
          else .error .parserError

/-- `Parser.get_hash`: like `get_array` with `{`/`}` and key-value pairs. -/
def get_hash : Nat → List Char → PR Expr
  | 0, _ => .error .outOfFuel
  | fuel + 1, content =>
    let (_, c) := get_ws (content.drop 1)
    match c with
    | [] => .error .indexError
    | ch :: rest =>
      if ch = '}' then .ok (.hash [], rest)
      else get_hash_loop fuel [] c

/-- The element `while` loop of `Parser.get_hash`. -/
def get_hash_loop : Nat → List (List Char × Expr) → List Char → PR Expr
  | 0, _, _ => .error .outOfFuel
  | fuel + 1, acc, content =>
    match get_kvp fuel content with
    | .error e => .error e
    | .ok (kvp, c1) =>
      let (_, c2) := get_ws c1
      match c2 with
      | [] => .error .indexError
      | ch :: rest =>
        if ch = ',' then
          let (_, c3) := get_ws rest
          get_hash_loop fuel (acc ++ [kvp]) c3
        else if ch = '}' then .ok (.hash (acc ++ [kvp]), rest)
        else .error .parserError

/-- `Parser.get_kvp`: `identifier : value`, whitespace-tolerant around the
colon. -/
def get_kvp : Nat → List Char → PR (List Char × Expr)
  | 0, _ => .error .outOfFuel
  | fuel + 1, content =>
    match get_identifier content with
    | .error e => .error e
    | .ok (key, c1) =>
      let (_, c2) := get_ws c1
      match c2 with
      | [] => .error .indexError
      | ch :: rest =>
        if ch = ':' then
          let (_, c3) := get_ws rest
          match get_value fuel false c3 with
          | .error e => .error e
          | .ok (v?, c4) =>
            match v? with
            | some v => .ok ((key, v), c4)
            | none => .error .parserError
        else .error .parserError

/-- `Parser.get_attributes`: an immediate `>` means no attributes
(returns `None`); otherwise a sequence of key-value pairs in which the
separating whitespace is mandatory unless the block closes with `>`. -/
def get_attributes : Nat → List Char → PR (Option (List (List Char × Expr)))
  | 0, _ => .error .outOfFuel
  | fuel + 1, content =>
    match content with
    | [] => .error .indexError
    | ch :: rest =>
      if ch = '>' then .ok (none, rest)
      else get_attributes_loop fuel [] content

/-- The `while` loop of `Parser.get_attributes`. -/
def get_attributes_loop : Nat → List (List Char × Expr) → List Char →
    PR (Option (List (List Char × Expr)))
  | 0, _, _ => .error .outOfFuel
  | fuel + 1, acc, content =>
    match get_kvp fuel content with
    | .error e => .error e
    | .ok (kvp, c1) =>
      let (ws2, c2) := get_ws c1
      match c2 with
      | [] => .error .indexError
      | ch :: rest =>
        if ch = '>' then .ok (some (acc ++ [kvp]), rest)
        else if ws2 = [] then .error .parserError
        else get_attributes_loop fuel (acc ++ [kvp]) c2

/-- `Parser.get_index`: consume `[`, skip whitespace; `]` closes an empty
index, otherwise a comma-separated expression list terminated by `]`. -/
def get_index : Nat → List Char → PR (List Expr)
  | 0, _ => .error .outOfFuel
  | fuel + 1, content =>
    let (_, c) := get_ws (content.drop 1)
    match c with
    | [] => .error .indexError
    | ch :: rest =>
      if ch = ']' then .ok ([], rest)
      else get_index_loop fuel [] c

/-- The `while` loop of `Parser.get_index`. -/
def get_index_loop : Nat → List Expr → List Char → PR (List Expr)
  | 0, _, _ => .error .outOfFuel
  | fuel + 1, acc, content =>
    match get_expression fuel content with
    | .error e => .error e
    | .ok (e, c1) =>
      let (_, c2) := get_ws c1
      match c2 with
      | [] => .error .indexError
      | ch :: rest =>
        if ch = ',' then
          let (_, c3) := get_ws rest
          get_index_loop fuel (acc ++ [e]) c3
        else if ch = ']' then .ok (acc ++ [e], rest)
        else .error .parserError

/-- `Parser.get_expression`: the expression entry point delegates to the
conditional level. -/
def get_expression : Nat → List Char → PR Expr
  | 0, _ => .error .outOfFuel
  | fuel + 1, content => get_conditional_expression fuel content

/-- `Parser.get_conditional_expression`: parse a logical-or expression;
without a `?` lookahead return it, otherwise parse
`? <expression> : <expression>` where both arms re-enter the *full*
expression grammar (which makes the ternary right-associative and lowest
precedence). -/
def get_conditional_expression : Nat → List Char → PR Expr
  | 0, _ => .error .outOfFuel
  | fuel + 1, content =>
    match get_or_expression fuel content with
    | .error e => .error e
    | .ok (orE, c0) =>
      let (_, c) := get_ws c0
      match c with
      | [] => .error .indexError
      | ch :: rest =>
        if ch = '?' then
          let (_, c1) := get_ws rest
          match get_expression fuel c1 with
          | .error e => .error e
          | .ok (consequent, c2) =>
            let (_, c3) := get_ws c2
            match c3 with
            | [] => .error .indexError
            | ch2 :: r2 =>
              if ch2 = ':' then
                let (_, c4) := get_ws r2
                match get_expression fuel c4 with
                | .error e => .error e
                | .ok (alternate, c5) =>
                  let (_, c6) := get_ws c5
                  .ok (.conditional orE consequent alternate, c6)
              else .error .parserError
        else .ok (orE, c)

/-- `Parser.get_or_expression` (`||`). -/
def get_or_expression : Nat → List Char → PR Expr
  | 0, _ => .error .outOfFuel
  | fuel + 1, content =>
    get_binop_expression 2 [['|', '|']] .logical
      (fun c => get_and_expression fuel c) fuel content

/-- `Parser.get_and_expression` (`&&`). -/
def get_and_expression : Nat → List Char → PR Expr
  | 0, _ => .error .outOfFuel
  | fuel + 1, content =>
    get_binop_expression 2 [['&', '&']] .logical
      (fun c => get_equality_expression fuel c) fuel content

/-- `Parser.get_equality_expression` (`==`, `!=`). -/
def get_equality_expression : Nat → List Char → PR Expr
  | 0, _ => .error .outOfFuel
  | fuel + 1, content =>
    get_binop_expression 2 [['=', '='], ['!', '=']] .binary
      (fun c => get_relational_expression fuel c) fuel content

/-- `Parser.get_relational_expression` (`<`, `>`, `<=`, `>=`). -/
def get_relational_expression : Nat → List Char → PR Expr
  | 0, _ => .error .outOfFuel
  | fuel + 1, content =>
    get_binop_expression_re .binary
      (fun c => get_additive_expression fuel c) fuel content

/-- `Parser.get_additive_expression` (`+`, `-`); its operands come from
the *modulo* level. -/
def get_additive_expression : Nat → List Char → PR Expr
  | 0, _ => .error .outOfFuel
  | fuel + 1, content =>
    get_binop_expression 1 [['+'], ['-']] .binary
      (fun c => get_modulo_expression fuel c) fuel content

/-- `Parser.get_modulo_expression` (`%`); its operands come from the
multiplicative level. -/
def get_modulo_expression : Nat → List Char → PR Expr
  | 0, _ => .error .outOfFuel
  | fuel + 1, content =>
    get_binop_expression 1 [['%']] .binary
      (fun c => get_multiplicative_expression fuel c) fuel content

/-- `Parser.get_multiplicative_expression` (`*`); its operands come from
the division level. -/
def get_multiplicative_expression : Nat → List Char → PR Expr
  | 0, _ => .error .outOfFuel
  | fuel + 1, content =>
    get_binop_expression 1 [['*']] .binary
      (fun c => get_dividive_expression fuel c) fuel content

/-- `Parser.get_dividive_expression` (`/`); its operands come from the
unary level. -/
def get_dividive_expression : Nat → List Char → PR Expr
  | 0, _ => .error .outOfFuel
  | fuel + 1, content =>
    get_binop_expression 1 [['/']] .binary
      (fun c => get_unary_expression fuel c) fuel content

/-- `Parser.get_unary_expression` (`+`, `-`, `!`). -/
def get_unary_expression : Nat → List Char → PR Expr
  | 0, _ => .error .outOfFuel
  | fuel + 1, content =>
    get_unop_expression ['+', '-', '!'] .unary
      (fun c => get_member_expression fuel c) fuel content

/-- `Parser.get_member_expression`: a parenthesis-or-primary expression
followed by the postfix chain. -/
def get_member_expression : Nat → List Char → PR Expr
  | 0, _ => .error .outOfFuel
  | fuel + 1, content =>
    match get_parenthesis_expression fuel content with
    | .error e => .error e
    | .ok (exp, c1) =>
      let (_, c2) := get_ws c1
      get_member_loop fuel exp c2

/-- The `while 1` postfix chain of `Parser.get_member_expression`:
`[.`/`..` attribute access, `[`/`.` property access, `(` call, anything
else stops — where inspecting `content[0]` of an exhausted cursor is an
`IndexError`. -/
def get_member_loop : Nat → Expr → List Char → PR Expr
  | 0, _, _ => .error .outOfFuel
  | fuel + 1, exp, content =>
    if content.take 2 ∈ [['[', '.'], ['.', '.']] then
      match get_attr_expression fuel exp content with
      | .error e => .error e
      | .ok (e2, c) => get_member_loop fuel e2 c
    else
      match content with
      | [] => .error .indexError
      | ch :: _ =>
        if ch = '[' ∨ ch = '.' then
          match get_property_expression fuel exp content with
          | .error e => .error e
          | .ok (e2, c) => get_member_loop fuel e2 c
        else if ch = '(' then
          match get_call_expression fuel exp content with
          | .error e => .error e
          | .ok (e2, c) => get_member_loop fuel e2 c
        else .ok (exp, content)

/-- `Parser.get_parenthesis_expression`: `( <expression> )` — the closing
parenthesis *is* checked (`ParserError` if absent) — or a primary. -/
def get_parenthesis_expression : Nat → List Char → PR Expr
  | 0, _ => .error .outOfFuel
  | fuel + 1, content =>
    match content with
    | [] => .error .indexError
    | ch :: rest =>
      if ch = '(' then
        let (_, c1) := get_ws rest
        match get_expression fuel c1 with
        | .error e => .error e
        | .ok (inner, c2) =>
          let (_, c3) := get_ws c2
          match c3 with
          | [] => .error .indexError
          | ch2 :: r2 =>
            if ch2 = ')' then .ok (.paren inner, r2)
            else .error .parserError
      else get_primary_expression fuel content

/-- `Parser.get_primary_expression`: a maximal digit run is an integer
literal (the `while self.content[ptr].isdigit()` scan raises `IndexError`
when it runs off the end of the input, i.e. whenever the rest of the
cursor is all digits — including the empty cursor); a quote, `{` or `[`
head delegates to the value grammar; otherwise a bare identifier. -/
def get_primary_expression : Nat → List Char → PR Expr
  | 0, _ => .error .outOfFuel
  | fuel + 1, content =>
    let ds := content.takeWhile Char.isDigit
    if content.drop ds.length = [] then .error .indexError
    else if ds ≠ [] then .ok (.literal (digitsToNat ds), content.drop ds.length)
    else
      match content with
      | [] => .error .indexError
      | c :: _ =>
        if c = '"' ∨ c = squote ∨ c = '{' ∨ c = '[' then
          match get_value fuel false content with
          | .error e => .error e
          | .ok (some v, c1) => .ok (v, c1)
          | .ok (none, _) => .error .parserError
        else
          match get_identifier content with
          | .error e => .error e
          | .ok (idn, c1) => .ok (.identifier idn, c1)

/-- `Parser.get_attr_expression`: `[. <expression> ]` (computed) or
`..name`.  In the computed form the character where `]` belongs is
consumed by `self.content = self.content[1:]` with *no check at all*. -/
def get_attr_expression : Nat → Expr → List Char → PR Expr
  | 0, _, _ => .error .outOfFuel
  | fuel + 1, idref, content =>
    if content.take 2 = ['[', '.'] then
      let (_, c1) := get_ws (content.drop 2)
      match get_expression fuel c1 with
      | .error e => .error e
      | .ok (exp, c2) =>
        let (_, c3) := get_ws c2
        .ok (.attr idref exp true, c3.drop 1)
    else if content.take 2 = ['.', '.'] then
      match get_identifier (content.drop 2) with
      | .error e => .error e
      | .ok (prop, c1) => .ok (.attr idref (.identifier prop) false, c1)
    else .error .parserError

/-- `Parser.get_property_expression`: `[ <expression> ]` (computed) or
`.name`.  As in `get_attr_expression`, the character where `]` belongs is
consumed without any check. -/
def get_property_expression : Nat → Expr → List Char → PR Expr
  | 0, _, _ => .error .outOfFuel
  | fuel + 1, idref, content =>
    match content with
    | [] => .error .indexError
    | ch :: rest =>
      if ch = '[' then
        let (_, c1) := get_ws rest
        match get_expression fuel c1 with
        | .error e => .error e
        | .ok (exp, c2) =>
          let (_, c3) := get_ws c2
          .ok (.property idref exp true, c3.drop 1)
      else if ch = '.' then
        match get_identifier rest with
        | .error e => .error e
        | .ok (prop, c1) => .ok (.property idref (.identifier prop) false, c1)
      else .error .parserError

/-- `Parser.get_call_expression`: `( ... )` with a comma-separated,
whitespace-tolerant argument list (empty permitted). -/
def get_call_expression : Nat → Expr → List Char → PR Expr
  | 0, _, _ => .error .outOfFuel
  | fuel + 1, callee, content =>
    let (_, c) := get_ws (content.drop 1)
    match c with
    | [] => .error .indexError
    | ch :: rest =>
      if ch = ')' then .ok (.call callee [], rest)
      else get_call_loop fuel callee [] c

/-- The argument `while` loop of `Parser.get_call_expression`. -/
def get_call_loop : Nat → Expr → List Expr → List Char → PR Expr
  | 0, _, _, _ => .error .outOfFuel
  | fuel + 1, callee, acc, content =>
    match get_expression fuel content with
    | .error e => .error e
    | .ok (e, c1) =>
      let (_, c2) := get_ws c1
      match c2 with
      | [] => .error .indexError
      | ch :: rest =>
        if ch = ',' then
          let (_, c3) := get_ws rest
          get_call_loop fuel callee (acc ++ [e]) c3
        else if ch = ')' then .ok (.call callee (acc ++ [e]), rest)
        else .error .parserError

/-- The `while self.content:` loop of `Parser.parse`: while input remains,
parse an entry, append it to `body`, then consume whitespace and append it
to the template fragment list. -/
def parse_loop : Nat → List Entry → List (List Char) → List Char → Except PErr LOL
  | 0, _, _, _ => .error .outOfFuel
  | fuel + 1, body, template, content =>
    match content with
    | [] => .ok ⟨body, template⟩
    | _ :: _ =>
      match get_entry fuel content with
      | .error e => .error e
      | .ok (entry, c1) =>
        let (ws, c2) := get_ws c1
        parse_loop fuel (body ++ [entry]) (template ++ [ws]) c2

end

/-- `Parser.parse`: record the leading whitespace as template fragment 0
(the source sets `_parse_strings = True` here, which is the mode
`get_value` is embedded in), then run the entry loop until the input is
exhausted. -/
def parse (fuel : Nat) (content : List Char) : Except PErr LOL :=
  let (ws, c) := get_ws content
  parse_loop fuel [] [ws] c

/-! ## Helper lemmas about the whitespace scanner -/

/-- Splitting a list at its `dropWhile` point recovers its `takeWhile`
run. -/
theorem take_sub_dropWhile (p : Char → Bool) (l : List Char) :
    l.take (l.length - (l.dropWhile p).length) = l.takeWhile p := by
  have hlen : l.length - (l.dropWhile p).length = (l.takeWhile p).length := by
    have h := congrArg List.length (List.takeWhile_append_dropWhile (p := p) (l := l))
    rw [List.length_append] at h
    omega
  have hsplit : l.takeWhile p ++ l.dropWhile p = l :=
    List.takeWhile_append_dropWhile (p := p) (l := l)
  rw [hlen]
  calc l.take (l.takeWhile p).length
      = (l.takeWhile p ++ l.dropWhile p).take (l.takeWhile p).length := by rw [hsplit]
    _ = l.takeWhile p := List.take_left _ _

/-- Unfolding of `get_ws` on a cursor whose head is in
`string.whitespace`. -/
theorem get_ws_cons_mem {c : Char} (cs : List Char) (hc : c ∈ wschars) :
    get_ws (c :: cs) =
      (if (c :: cs).dropWhile pyIsSpace = [] then []
       else (c :: cs).take ((c :: cs).length - ((c :: cs).dropWhile pyIsSpace).length),
       (c :: cs).dropWhile pyIsSpace) := by
  simp only [get_ws, if_pos hc]

/-- Unfolding of `get_ws` on a cursor whose head is not in
`string.whitespace`. -/
theorem get_ws_cons_not_mem {c : Char} (cs : List Char) (hc : c ∉ wschars) :
    get_ws (c :: cs) = ([], c :: cs) := by
  simp only [get_ws, if_neg hc]

/-- What `get_ws` returns is either empty or the `str.isspace` run at the
head of the input. -/
theorem get_ws_fst_cases (content : List Char) :
    (get_ws content).1 = [] ∨ (get_ws content).1 = content.takeWhile pyIsSpace := by
  match content with
  | [] => exact Or.inl rfl
  | c :: cs =>
    by_cases hc : c ∈ wschars
    · rw [get_ws_cons_mem cs hc]
      by_cases hr : (c :: cs).dropWhile pyIsSpace = []
      · left
        simp only [if_pos hr]
      · right
        simp only [if_neg hr]
        exact take_sub_dropWhile pyIsSpace (c :: cs)
    · rw [get_ws_cons_not_mem cs hc]
      exact Or.inl rfl

/-- Every character `get_ws` returns satisfies Python `isspace`. -/
theorem get_ws_fst_space (content : List Char) :
    ∀ x ∈ (get_ws content).1, pyIsSpace x := by
  intro x hx
  rcases get_ws_fst_cases content with h | h
  · rw [h] at hx; cases hx
  · rw [h] at hx; exact List.mem_takeWhile_imp hx

/-- When `get_ws` consumes everything (the `lstrip` result is empty), the
`content[:len(content)*-1]` slice returns the empty string: the consumed
run is lost. -/
theorem get_ws_fst_of_snd_nil (content : List Char)
    (h : (get_ws content).2 = []) : (get_ws content).1 = [] := by
  match content with
  | [] => rfl
  | c :: cs =>
    by_cases hc : c ∈ wschars
    · rw [get_ws_cons_mem cs hc] at h ⊢
      simp only at h
      simp only [if_pos h]
    · rw [get_ws_cons_not_mem cs hc] at h
      exact absurd h (List.cons_ne_nil c cs)

/-! ## Helper lemmas about the entry loop of `parse` -/

/-- Invariant of `parse_loop`: each iteration appends exactly one entry and
one template fragment; the loop only stops on empty input, right after a
`get_ws` whose run (if any) reached the end of the input and was therefore
recorded as the empty fragment. -/
theorem parse_loop_ok (fuel : Nat) :
    ∀ body tmpl c lol, parse_loop fuel body tmpl c = .ok lol →
      lol.template.length + body.length = lol.body.length + tmpl.length ∧
      (c = [] → lol = ⟨body, tmpl⟩) ∧
      (c ≠ [] → lol.template.getLast? = some []) := by
  induction fuel with
  | zero => intro body tmpl c lol h; cases h
  | succ n ih =>
    intro body tmpl c lol h
    match c with
    | [] =>
      simp only [parse_loop] at h
      injection h with h2
      subst h2
      refine ⟨?_, fun _ => rfl, fun hne => absurd rfl hne⟩
      show tmpl.length + body.length = body.length + tmpl.length
      omega
    | ch :: cs =>
      simp only [parse_loop] at h
      rcases hge : get_entry n (ch :: cs) with e | ⟨entry, c1⟩ <;> rw [hge] at h
      · cases h
      · have h' : parse_loop n (body ++ [entry])
            (tmpl ++ [(get_ws c1).1]) (get_ws c1).2 = .ok lol := h
        obtain ⟨hlen, hnil, hlast⟩ := ih _ _ _ _ h'
        refine ⟨?_, fun hc => absurd hc (List.cons_ne_nil ch cs), fun _ => ?_⟩
        · have hlen2 : lol.template.length + (body.length + 1) =
              lol.body.length + (tmpl.length + 1) := by simpa using hlen
          omega
        · rcases hc2 : (get_ws c1).2 with _ | ⟨x, xs⟩
          · have hws : (get_ws c1).1 = [] := get_ws_fst_of_snd_nil c1 hc2
            have hlol : lol = ⟨body ++ [entry], tmpl ++ [(get_ws c1).1]⟩ := hnil hc2
            rw [hlol, hws]
            exact List.getLast?_concat _
          · exact hlast (by rw [hc2]; simp)

/-! ## Helper lemmas about `%s` slot counting -/

/-- A `%s` pair at the head of a template contributes one slot. -/
theorem countSlots_ps (rest : List Char) :
    countSlots ('%' :: 's' :: rest) = countSlots rest + 1 := by
  show (if ('%' : Char) = '%' ∧ ('s' : Char) = 's' then countSlots rest + 1
        else countSlots ('s' :: rest)) = countSlots rest + 1
  rw [if_pos ⟨rfl, rfl⟩]

/-- A head pair that is not `%s` contributes no slot. -/
theorem countSlots_cons_ne (a b : Char) (hne : ¬(a = '%' ∧ b = 's'))
    (rest : List Char) :
    countSlots (a :: b :: rest) = countSlots (b :: rest) := by
  show (if a = '%' ∧ b = 's' then countSlots rest + 1
        else countSlots (b :: rest)) = countSlots (b :: rest)
  rw [if_neg hne]

/-- Whitespace characters never form part of a `%s` slot. -/
theorem countSlots_space_cons {c : Char} (l : List Char) (h : pyIsSpace c) :
    countSlots (c :: l) = countSlots l := by
  have hc : c ≠ '%' := by
    intro he
    rw [he] at h
    exact absurd h (by decide)
  match l with
  | [] => rfl
  | b :: rest =>
    show (if c = '%' ∧ b = 's' then countSlots rest + 1
          else countSlots (b :: rest)) = countSlots (b :: rest)
    rw [if_neg (fun hand => hc hand.1)]

/-- A whitespace run at the head of a template contributes no slots. -/
theorem countSlots_space_append (ws l : List Char) (h : ∀ c ∈ ws, pyIsSpace c) :
    countSlots (ws ++ l) = countSlots l := by
  induction ws with
  | nil => rfl
  | cons c ws ih =>
    rw [List.cons_append, countSlots_space_cons _ (h c (by simp))]
    exact ih (fun x hx => h x (by simp [hx]))

/-- The template of a value-less entity has four `%s` slots, whatever the
recorded whitespace run is. -/
theorem countSlots_tmpl4 (ws1 : List Char) (h : ∀ c ∈ ws1, pyIsSpace c) :
    countSlots ("<%s".data ++ ws1 ++ "%s%s%s>".data) = 4 := by
  show countSlots ('<' :: '%' :: 's' :: (ws1 ++ "%s%s%s>".data)) = 4
  rw [countSlots_cons_ne '<' '%' (by decide) _, countSlots_ps,
    countSlots_space_append ws1 _ h]
  decide

/-- The template of a value-bearing entity *also* has four `%s` slots,
whatever the two recorded whitespace runs are. -/
theorem countSlots_tmpl6 (ws1 ws2 : List Char) (h1 : ∀ c ∈ ws1, pyIsSpace c)
    (h2 : ∀ c ∈ ws2, pyIsSpace c) :
    countSlots ("<%s%s".data ++ ws1 ++ "%s".data ++ ws2 ++ "%s>".data) = 4 := by
  show countSlots ('<' :: '%' :: 's' :: '%' :: 's' ::
      (((ws1 ++ "%s".data) ++ ws2) ++ "%s>".data)) = 4
  rw [countSlots_cons_ne '<' '%' (by decide) _, countSlots_ps, countSlots_ps,
    List.append_assoc, List.append_assoc, countSlots_space_append ws1 _ h1,
    show ("%s".data ++ (ws2 ++ "%s>".data) : List Char) =
      '%' :: 's' :: (ws2 ++ "%s>".data) from rfl,
    countSlots_ps, countSlots_space_append ws2 _ h2]
  decide

/-! ## The claims -/

/-- Claim C1 (code bug): the claimed round-trip `serialize(parse(D)) = D`
cannot hold for every valid document.  The two distinct valid documents
`"<a> "` and `"<a>"` parse to the *same* resource root (the trailing
whitespace is consumed but recorded as an empty fragment by the
`content[:len(content)*-1]` slice in `get_ws`), so no serializer — of any
kind — can reproduce both inputs byte-for-byte. -/
theorem claim1_no_roundtrip :
    (∃ r, parse 20 "<a> ".data = .ok r ∧ parse 20 "<a>".data = .ok r) ∧
    (∀ serialize : Except PErr LOL → List Char,
      serialize (parse 20 "<a> ".data) = "<a> ".data →
      serialize (parse 20 "<a>".data) ≠ "<a>".data) := by
  constructor
  · exact ⟨⟨[.entity ['a'] none none none "<%s%s%s%s>".data], [[], []]⟩, rfl, rfl⟩
  · intro serialize h1 h2
    have he : serialize (parse 20 "<a> ".data) = serialize (parse 20 "<a>".data) := rfl
    rw [h1, h2] at he
    exact absurd he (by decide)

/-- Witness for `claim1_no_roundtrip` at the constant serializer. -/
theorem claim1_witness :
    ((fun _ => "<a> ".data) (parse 20 "<a> ".data) = "<a> ".data) ∧
    ((fun _ => "<a> ".data) (parse 20 "<a>".data) ≠ "<a>".data) :=
  ⟨rfl, claim1_no_roundtrip.2 (fun _ => "<a> ".data) rfl⟩

/-- Claim C2 (confirmed): the arithmetic precedence chain is
additive ≺ modulo ≺ multiplicative ≺ division, each level strictly looser
than the next: `2 + 3 % 2` groups as `2 + (3 % 2)`, `2 % 3 * 4` groups as
`2 % (3 * 4)`, `2 * 3 / 2` groups as `2 * (3 / 2)` (both diverging from a
conventional single multiplicative level), and additive operators
themselves fold left-associatively. -/
theorem claim2_precedence_chain :
    get_expression 30 "2 + 3 % 2]".data =
      .ok (.binary ['+'] (.literal 2) (.binary ['%'] (.literal 3) (.literal 2)), [']']) ∧
    get_expression 30 "2 % 3 * 4]".data =
      .ok (.binary ['%'] (.literal 2) (.binary ['*'] (.literal 3) (.literal 4)), [']']) ∧
    get_expression 30 "2 * 3 / 2]".data =
      .ok (.binary ['*'] (.literal 2) (.binary ['/'] (.literal 3) (.literal 2)), [']']) ∧
    get_expression 30 "2 - 3 + 4]".data =
      .ok (.binary ['+'] (.binary ['-'] (.literal 2) (.literal 3)) (.literal 4), [']']) :=
  ⟨rfl, rfl, rfl, rfl⟩

/-- Claim C3 (confirmed): the ternary operator is right-associative
(`a ? b : c ? d : e` parses with the nested conditional as the alternate)
and sits below every other level (`x || y ? c : d` keeps the `||` inside
the test operand). -/
theorem claim3_ternary_right_assoc :
    get_expression 40 "a ? b : c ? d : e]".data =
      .ok (.conditional (.identifier ['a']) (.identifier ['b'])
        (.conditional (.identifier ['c']) (.identifier ['d']) (.identifier ['e'])), [']']) ∧
    get_expression 40 "x || y ? c : d]".data =
      .ok (.conditional (.logical ['|', '|'] (.identifier ['x']) (.identifier ['y']))
        (.identifier ['c']) (.identifier ['d']), [']']) :=
  ⟨rfl, rfl⟩

/-- Claim C4 counterexample: the whitespace-only document `"  "` parses
successfully, but its single template fragment is the empty string — not
the leading (equally: trailing) document whitespace `"  "` the claim
requires. -/
theorem claim4_cex :
    parse 5 [' ', ' '] = .ok ⟨[], [[]]⟩ ∧
    List.takeWhile pyIsSpace [' ', ' '] = [' ', ' '] ∧
    ([] : List Char) ≠ [' ', ' '] :=
  ⟨rfl, rfl, by decide⟩

/-- Claim C4 (amended): on every successful parse the template fragment
sequence has length entry count + 1, and the *last* fragment is always
empty (a whitespace run that reaches the end of the input is consumed but
recorded as empty); `parse ""` yields zero entries and exactly one empty
fragment. -/
theorem claim4_template_invariant :
    (∀ fuel content lol, parse fuel content = .ok lol →
      lol.template.length = lol.body.length + 1 ∧
      lol.template.getLast? = some []) ∧
    parse 1 [] = .ok ⟨[], [[]]⟩ := by
  constructor
  · intro fuel content lol h
    simp only [parse] at h
    rcases hgw : get_ws content with ⟨ws0, c0⟩
    rw [hgw] at h
    have h' : parse_loop fuel [] [ws0] c0 = .ok lol := h
    obtain ⟨hlen, hnil, hlast⟩ := parse_loop_ok fuel _ _ _ _ h'
    constructor
    · simpa using hlen
    · rcases c0 with _ | ⟨x, xs⟩
      · have hsnd : (get_ws content).2 = [] := by rw [hgw]
        have hws : ws0 = [] := by
          have hfst := get_ws_fst_of_snd_nil content hsnd
          rw [hgw] at hfst
          exact hfst
        rw [hnil rfl, hws]
        rfl
      · exact hlast (List.cons_ne_nil x xs)
  · rfl

/-- Witness for `claim4_template_invariant` at the document `"<a>"`. -/
theorem claim4_witness :
    (⟨[Entry.entity ['a'] none none none "<%s%s%s%s>".data], [[], []]⟩ : LOL).template.length =
      (⟨[Entry.entity ['a'] none none none "<%s%s%s%s>".data], [[], []]⟩ : LOL).body.length + 1 ∧
    (⟨[Entry.entity ['a'] none none none "<%s%s%s%s>".data], [[], []]⟩ : LOL).template.getLast? =
      some [] :=
  claim4_template_invariant.1 9 "<a>".data _ rfl

/-- Claim C6 (code bug): parsing `"<foo"` hits the out-of-range
`content[0]` access in `get_entry` right after the identifier — an
*uncaught* `IndexError`, because the `except IndexError` handler in
`parse` is commented out — rather than a fatal parse failure; parsing
`"<123>"` does fail with the parser's error (`ParserError`, the code's
only error kind, standing for the claim's `InvalidIdentifier`). -/
theorem claim6_eof_behaviour :
    parse 10 ['<', 'f', 'o', 'o'] = .error .indexError ∧
    parse 10 "<123>".data = .error .parserError :=
  ⟨rfl, rfl⟩

/-- Claim C8 counterexample: on the all-whitespace input `" "` the scanner
consumes the run but returns the empty string instead of the maximal
leading run; and on `" \x1c a"`-like inputs it consumes `'\x1c'` (Python
`isspace`, via `lstrip()`) even though `'\x1c'` is outside the fixed
six-character set. -/
theorem claim8_cex :
    ((get_ws [' ']).2 = [] ∧ (get_ws [' ']).1 ≠ [' ']) ∧
    (get_ws [' ', '\x1c', 'a'] = ([' ', '\x1c'], ['a']) ∧ '\x1c' ∉ wschars) :=
  ⟨⟨rfl, by decide⟩, ⟨rfl, by decide⟩⟩

/-- Claim C8 (amended): `get_ws` returns empty without consuming anything
when the input is empty or starts outside `string.whitespace`; when the
head *is* in that set it consumes the maximal leading run of Python
`str.isspace` characters (a strict superset of the fixed set), returns
that run when it does not reach the end of the input, and returns the
empty string (while still consuming the run) when it does. -/
theorem claim8_scanner (content : List Char) :
    (content = [] → get_ws content = ([], [])) ∧
    (∀ c cs, content = c :: cs → c ∉ wschars → get_ws content = ([], content)) ∧
    (∀ c cs, content = c :: cs → c ∈ wschars →
      (get_ws content).2 = content.dropWhile pyIsSpace ∧
      (content.dropWhile pyIsSpace ≠ [] →
        (get_ws content).1 = content.takeWhile pyIsSpace) ∧
      (content.dropWhile pyIsSpace = [] → (get_ws content).1 = [])) := by
  refine ⟨fun h => by subst h; rfl,
    fun c cs h hc => by subst h; exact get_ws_cons_not_mem cs hc,
    fun c cs h hc => ?_⟩
  subst h
  refine ⟨by rw [get_ws_cons_mem cs hc], fun hne => ?_, fun hnil => ?_⟩
  · rw [get_ws_cons_mem cs hc]
    show (if (c :: cs).dropWhile pyIsSpace = [] then []
          else (c :: cs).take ((c :: cs).length - ((c :: cs).dropWhile pyIsSpace).length)) =
      (c :: cs).takeWhile pyIsSpace
    rw [if_neg hne]
    exact take_sub_dropWhile pyIsSpace (c :: cs)
  · rw [get_ws_cons_mem cs hc]
    show (if (c :: cs).dropWhile pyIsSpace = [] then []
          else (c :: cs).take ((c :: cs).length - ((c :: cs).dropWhile pyIsSpace).length)) =
      ([] : List Char)
    rw [if_pos hnil]

/-- Witness for `claim8_scanner` at the input `" a"`. -/
theorem claim8_witness :
    (get_ws [' ', 'a']).2 = List.dropWhile pyIsSpace [' ', 'a'] ∧
    (get_ws [' ', 'a']).1 = List.takeWhile pyIsSpace [' ', 'a'] := by
  have h := (claim8_scanner [' ', 'a']).2.2 ' ' ['a'] rfl (by decide)
  exact ⟨h.1, h.2.1 (by decide)⟩

/-- Claim C10 (code bug): in computed property access `a[1]` and computed
attribute access `a[.1]`, the character where `]` belongs is consumed
*unconditionally*: with `]` present the access parses normally, but with
`#` in its place the parse still *succeeds*, silently consuming the `#`
(leaving the real `]` behind) instead of failing with an
unmatched-delimiter error as the claim requires. -/
theorem claim10_silent_consume :
    get_expression 40 "a[1]x".data =
      .ok (.property (.identifier ['a']) (.literal 1) true, ['x']) ∧
    get_expression 40 "a[.1]x".data =
      .ok (.attr (.identifier ['a']) (.literal 1) true, ['x']) ∧
    get_expression 40 "a[1#]x".data =
      .ok (.property (.identifier ['a']) (.literal 1) true, [']', 'x']) ∧
    get_expression 40 "a[.1#]x".data =
      .ok (.attr (.identifier ['a']) (.literal 1) true, [']', 'x']) :=
  ⟨rfl, rfl, rfl, rfl⟩

/-- Claim C5 (confirmed): the interpolated-string parser never returns a
one-segment `ComplexString` whose segment is a literal run — such a result
collapses to the plain `String` node — and concretely
`parse "<id \"just text\">"` yields an entity whose value is the plain
string node `"just text"`. -/
theorem claim5_degenerate_string :
    (∀ fuel content res l, get_complex_string fuel content = .ok res →
      res.1 = .complexString l → ¬∃ s, l = [Expr.string s]) ∧
    parse 40 "<id \"just text\">".data =
      .ok ⟨[.entity "id".data none (some (.string "just text".data)) none
        "<%s%s %s%s>".data], [[], []]⟩ := by
  constructor
  · intro fuel content res l h hres
    rintro ⟨s, rfl⟩
    rcases fuel with _ | n
    · cases h
    · rcases content with _ | ⟨q, rest⟩
      · cases h
      · simp only [get_complex_string] at h
        rcases hl : get_cs_loop n q [] rest with e | ⟨obj, c1⟩ <;> rw [hl] at h
        · cases h
        · rcases obj with _ | ⟨e1, _ | ⟨e2, tl⟩⟩
          · injection h with h2
            rw [← h2] at hres
            simp at hres
          · have h' : (if isStringNode e1 = true then Except.ok (e1, c1)
                else Except.ok (Expr.complexString [e1], c1)) = Except.ok res := h
            by_cases hs : isStringNode e1 = true
            · rw [if_pos hs] at h'
              injection h' with h2
              rw [← h2] at hres
              simp only [Prod.fst] at hres
              rw [hres] at hs
              simp [isStringNode] at hs
            · rw [if_neg hs] at h'
              injection h' with h2
              rw [← h2] at hres
              simp only [Prod.fst] at hres
              simp only [Expr.complexString.injEq, List.cons.injEq] at hres
              rw [hres.1] at hs
              simp [isStringNode] at hs
          · injection h with h2
            rw [← h2] at hres
            simp at hres
  · rfl

/-- Witness for `claim5_degenerate_string` at the three-segment
interpolated string `"a{{b}}c"`. -/
theorem claim5_witness :
    ¬∃ s, ([Expr.string ['a'], Expr.identifier ['b'], Expr.string ['c']] : List Expr) =
      [Expr.string s] :=
  claim5_degenerate_string.1 40 ['"', 'a', '{', '{', 'b', '}', '}', 'c', '"', 'x']
    (.complexString [.string ['a'], .identifier ['b'], .string ['c']], ['x'])
    [.string ['a'], .identifier ['b'], .string ['c']] rfl rfl

/-- Inside a complex string delimited by `"`, a cursor starting with a `{`
that is not followed by a second `{` (here `{">`) makes no progress: the
`{{` branch is not taken and the literal-run regex, whose character class
excludes `{`, cannot match, so the loop body returns to the identical
state.  Every fuel bound is therefore exhausted. -/
theorem cs_loop_stuck (fuel : Nat) :
    ∀ obj, get_cs_loop fuel '"' obj ['{', '"', '>'] = .error .outOfFuel := by
  induction fuel with
  | zero => intro obj; rfl
  | succ n ih => intro obj; exact ih obj

/-- The stuck segment loop propagates through `get_complex_string`. -/
theorem get_complex_string_stuck (n : Nat) :
    get_complex_string (n + 1) ['"', '{', '"', '>'] = .error .outOfFuel := by
  simp only [get_complex_string]
  rw [cs_loop_stuck n []]

/-- ... through `get_value`. -/
theorem get_value_stuck (n : Nat) :
    get_value (n + 2) true ['"', '{', '"', '>'] = .error .outOfFuel := by
  simp only [get_value, true_or, if_true]
  rw [get_complex_string_stuck n]

/-- ... through `get_entity`. -/
theorem get_entity_stuck (n : Nat) :
    get_entity (n + 3) ['x'] none [' ', '"', '{', '"', '>'] = .error .outOfFuel := by
  simp only [get_entity]
  rw [show get_ws [' ', '"', '{', '"', '>'] = ([' '], ['"', '{', '"', '>']) from rfl]
  simp only [Prod.fst, Prod.snd]
  rw [if_neg (by decide), if_neg (by decide), get_value_stuck n]

/-- ... and through `get_entry`. -/
theorem get_entry_stuck (n : Nat) :
    get_entry (n + 4) ['<', 'x', ' ', '"', '{', '"', '>'] = .error .outOfFuel := by
  simp only [get_entry, if_true]
  rw [show get_identifier ['x', ' ', '"', '{', '"', '>'] =
    .ok (['x'], [' ', '"', '{', '"', '>']) from rfl]
  simp only []
  rw [if_neg (by decide), if_neg (by decide)]
  exact get_entity_stuck n

/-- Claim C7 (code bug): the parse of `<x "{">` does not terminate.  In
the fuel-indexed embedding this shows as `outOfFuel` for *every* fuel
bound: the complex-string segment loop repeats forever on the cursor
`{">` without consuming anything (see `cs_loop_stuck`). -/
theorem claim7_nontermination :
    ∀ fuel, parse fuel ['<', 'x', ' ', '"', '{', '"', '>'] = .error .outOfFuel := by
  intro fuel
  match fuel with
  | 0 => rfl
  | 1 => rfl
  | 2 => rfl
  | 3 => rfl
  | 4 => rfl
  | (n + 5) =>
    show parse_loop (n + 5) [] [[]] ['<', 'x', ' ', '"', '{', '"', '>'] =
      .error .outOfFuel
    simp only [parse_loop]
    rw [get_entry_stuck n]

/-- Claim C9 counterexample: the value-bearing entity `<a "v">` is built
with the template `"<%s%s %s%s>"`, which has four `%s` slots — not the six
slots the claim requires. -/
theorem claim9_cex :
    parse 20 "<a \"v\">".data =
      .ok ⟨[.entity ['a'] none (some (.string ['v'])) none "<%s%s %s%s>".data],
        [[], []]⟩ ∧
    countSlots "<%s%s %s%s>".data = 4 ∧ countSlots "<%s%s %s%s>".data ≠ 6 :=
  ⟨rfl, by decide, by decide⟩

/-- Claim C9 (amended): after the identifier (and optional index), if the
whitespace-skipped lookahead is `>` the entity is built with no value, no
attributes and a 4-slot template around the single interior whitespace
run; otherwise the skipped whitespace must be non-empty (empty whitespace
with a non-`>` lookahead is a `ParserError`) and the entity is built with
a template capturing both interior whitespace runs which has *four* `%s`
slots (not six). -/
theorem claim9_entity_templates :
    (∀ fuel id idx content res, get_entity fuel id idx content = .ok res →
      (∀ rest, (get_ws content).2 = '>' :: rest →
        res = (.entity id idx none none
          ("<%s".data ++ (get_ws content).1 ++ "%s%s%s>".data), rest) ∧
        countSlots ("<%s".data ++ (get_ws content).1 ++ "%s%s%s>".data) = 4) ∧
      ((∀ rest, (get_ws content).2 ≠ '>' :: rest) →
        (get_ws content).1 ≠ [] ∧
        ∃ v a ws2 rem, res = (.entity id idx v a
          ("<%s%s".data ++ (get_ws content).1 ++ "%s".data ++ ws2 ++ "%s>".data), rem) ∧
          countSlots ("<%s%s".data ++ (get_ws content).1 ++ "%s".data ++ ws2 ++
            "%s>".data) = 4)) ∧
    (∀ fuel id idx content ch rest, (get_ws content).2 = ch :: rest → ch ≠ '>' →
      (get_ws content).1 = [] →
      get_entity (fuel + 1) id idx content = .error .parserError) := by
  constructor
  · intro fuel id idx content res h
    rcases fuel with _ | n
    · cases h
    · rcases hgw : get_ws content with ⟨ws1, c⟩
      have hsp1 : ∀ x ∈ ws1, pyIsSpace x := by
        have hx := get_ws_fst_space content
        rw [hgw] at hx
        exact hx
      simp only [get_entity] at h
      rw [hgw] at h
      rcases c with _ | ⟨ch, rest⟩
      · cases h
      · simp only [Prod.fst, Prod.snd] at h
        by_cases hch : ch = '>'
        · subst hch
          rw [if_pos rfl] at h
          injection h with h2
          constructor
          · intro rest' hrest'
            simp only [Prod.snd, List.cons.injEq, true_and] at hrest'
            subst hrest'
            exact ⟨h2.symm, countSlots_tmpl4 ws1 hsp1⟩
          · intro hforall
            exact absurd rfl (hforall rest)
        · rw [if_neg hch] at h
          by_cases hws : ws1 = []
          · rw [if_pos hws] at h
            cases h
          · rw [if_neg hws] at h
            split at h
            · cases h
            · split at h
              · cases h
              · rename_i x1 v c1 hval x2 attrs c3 hattr
                injection h with h2
                constructor
                · intro rest' hrest'
                  simp only [Prod.snd, List.cons.injEq] at hrest'
                  exact absurd hrest'.1 hch
                · intro _
                  exact ⟨hws, v, attrs, (get_ws c1).1, c3, h2.symm,
                    countSlots_tmpl6 ws1 _ hsp1 (get_ws_fst_space c1)⟩
  · intro fuel id idx content ch rest hsnd hch hws
    rcases hgw : get_ws content with ⟨ws1, c⟩
    rw [hgw] at hsnd hws
    simp only [Prod.fst, Prod.snd] at hsnd hws
    subst hsnd
    subst hws
    simp only [get_entity]
    rw [hgw]
    simp only [Prod.fst, Prod.snd]
    rw [if_neg hch]
    simp only [if_true]

/-- Witness for `claim9_entity_templates` at the entity body ` "v">`. -/
theorem claim9_witness :
    (get_ws (' ' :: "\"v\">".data)).1 ≠ [] ∧
    ∃ v a ws2 rem,
      (Entry.entity ['a'] none (some (Expr.string ['v'])) none "<%s%s %s%s>".data,
        ([] : List Char)) =
      (Entry.entity ['a'] none v a
        ("<%s%s".data ++ (get_ws (' ' :: "\"v\">".data)).1 ++ "%s".data ++ ws2 ++
          "%s>".data), rem) ∧
      countSlots ("<%s%s".data ++ (get_ws (' ' :: "\"v\">".data)).1 ++ "%s".data ++ ws2 ++
        "%s>".data) = 4 :=
  (claim9_entity_templates.1 10 ['a'] none (' ' :: "\"v\">".data) _ rfl).2
    (fun rest h => by
      have h' : ('"' :: "v\">".data : List Char) = '>' :: rest := h
      simp at h')

end L20n
